import Mathlib

/-!
Verification of the go-xmpp client library (package `xmpp`).

This file shallowly embeds the pure computational content of the library's
source files (`utils.go`, `xmpp.go`, `xmppclient.go`, `handler.go`) into Lean:

* Go strings are modelled as Lean `String` / `List Char`; Go byte slices as
  `List Nat` with every element `< 256`.
* The `crypto/md5` hash, `encoding/base64` std codec and the digest
  computation of `saslDigestResponse` are implemented in full.
* Stateful loops (`fireHandler`, the reconnect loop of `handlePingError`,
  `startReadMessage`) become structurally recursive functions over explicit
  snapshots / traces; the I/O boundary (decoded XML replies, random cnonces,
  the success of a dial) is passed in as explicit arguments.

Theorems at the end of the file settle the specification claims.
-/

namespace GoXmpp

/-! ## Go string primitives -/

/-- The set Go's `unicode.IsSpace` recognises, restricted to the Latin-1
range (`'\t'`, `'\n'`, `'\v'`, `'\f'`, `'\r'`, `' '`, U+0085, U+00A0).
`strings.TrimSpace` strips these from both ends. -/
def isGoSpace (c : Char) : Bool :=
  c = ' ' || c = '\t' || c = '\n' || (c = Char.ofNat 11) || (c = Char.ofNat 12) ||
  c = '\r' || (c = Char.ofNat 133) || (c = Char.ofNat 160)

/-- `strings.TrimSpace` on the character list. -/
def trimSpaceList (l : List Char) : List Char :=
  ((l.dropWhile isGoSpace).reverse.dropWhile isGoSpace).reverse

/-- Go `strings.TrimSpace`. -/
def goTrimSpace (s : String) : String := ⟨trimSpaceList s.data⟩

/-- Split at the first occurrence of a one-character separator:
Go `strings.SplitN(s, sep, 2)` for a single-char `sep`.  Returns one or two
pieces, as Go does. -/
def splitN2List (l : List Char) (sep : Char) : List (List Char) :=
  match l with
  | [] => [[]]
  | c :: rest =>
    if c = sep then [[], rest]
    else
      match splitN2List rest sep with
      | [one] => [c :: one]
      | a :: b => (c :: a) :: b
      | [] => [[c]]

/-- Go `strings.SplitN(s, sep, 2)` for a one-character separator. -/
def goSplitN2 (s : String) (sep : Char) : List String :=
  (splitN2List s.data sep).map (fun l => ⟨l⟩)

/-- Go `strings.Index(s, "/")` specialised to a one-character needle:
index of the first occurrence, or `none`. -/
def goIndexChar (l : List Char) (sep : Char) : Option Nat :=
  match l with
  | [] => none
  | c :: rest =>
    if c = sep then some 0
    else (goIndexChar rest sep).map (· + 1)

/-! ## utils.go : ToBareJID, GetDomain -/

/-- `utils.go` `ToBareJID`: strip the input at the first `/`
(`i := strings.Index(jid, "/"); if i < 0 { return jid }; return jid[0:i]`). -/
def ToBareJID (jid : String) : String :=
  match goIndexChar jid.data '/' with
  | none => jid
  | some i => ⟨jid.data.take i⟩

/-- `utils.go` `GetDomain`:
`j := strings.TrimSpace(jid); a := strings.SplitN(j, "@", 2);`
`if len(a) == 2 { return a[1], nil }; return "", errors.New("invalid jid!")`. -/
def GetDomain (jid : String) : Except String String :=
  let j := goTrimSpace jid
  match goSplitN2 j '@' with
  | [_, d] => .ok d
  | _ => .error "invalid jid!"

/-! ## utils.go : alpha, randChar, RandomString -/

/-- The alphabet constant of `utils.go`. -/
def alphaStr : String := "abcdefghijkmnpqrstuvwxyzABCDEFGHJKLMNPQRSTUVWXYZ23456789"

/-- `randChar` draws `rand.Intn(len(alpha)-1)`, i.e. an index in
`[0, len(alpha)-1)`; the draw is modelled as the explicit argument. -/
def randChar (d : Fin (alphaStr.length - 1)) : Char :=
  alphaStr.data.getD d.val ' '

/-- The loop body of `RandomString`: consume draws until `l` characters have
been collected, skipping a draw whose character equals the previously
written one (`if c != temp`).  `temp` starts as the empty Go string, which
never equals a one-character string, modelled by `none`. -/
def randomStringAux : List (Fin (alphaStr.length - 1)) → Nat → Option Char → List Char
  | _, 0, _ => []
  | [], _ + 1, _ => []
  | d :: ds, l + 1, temp =>
    let c := randChar d
    if temp = some c then randomStringAux ds (l + 1) temp
    else c :: randomStringAux ds l (some c)

/-- `utils.go` `RandomString(l)`, with the stream of `rand.Intn(len(alpha)-1)`
draws made explicit (the Go loop blocks for more draws; we stop when the
supplied draws run out). -/
def RandomString (draws : List (Fin (alphaStr.length - 1))) (l : Nat) : String :=
  ⟨randomStringAux draws l none⟩

/-! ## Bytes and UTF-8

Go byte slices are `List Nat` (entries `< 256`); `[]byte(s)` is UTF-8
encoding of the string. -/

/-- UTF-8 encoding of one code point. -/
def utf8Encode (c : Nat) : List Nat :=
  if c < 0x80 then [c]
  else if c < 0x800 then [0xC0 + c / 64, 0x80 + c % 64]
  else if c < 0x10000 then [0xE0 + c / 4096, 0x80 + (c / 64) % 64, 0x80 + c % 64]
  else [0xF0 + c / 262144, 0x80 + (c / 4096) % 64, 0x80 + (c / 64) % 64, 0x80 + c % 64]

/-- Go `[]byte(s)`: the UTF-8 bytes of a string. -/
def strBytes (s : String) : List Nat :=
  (s.data.map (fun c => utf8Encode c.toNat)).flatten

/-! ## crypto/md5 (RFC 1321) -/

/-- Reduce to a 32-bit word. -/
def w32 (x : Nat) : Nat := x % 4294967296

/-- 32-bit left rotation (argument must already be `< 2^32`). -/
def rotl32 (x s : Nat) : Nat := (x * 2 ^ s) % 4294967296 + x / 2 ^ (32 - s)

/-- 32-bit bitwise complement. -/
def not32 (x : Nat) : Nat := 4294967295 - x

/-- The 64 MD5 sine-table constants `K[i] = ⌊2³² · |sin(i+1)|⌋`. -/
def md5K : List Nat :=
  [0xd76aa478, 0xe8c7b756, 0x242070db, 0xc1bdceee,
   0xf57c0faf, 0x4787c62a, 0xa8304613, 0xfd469501,
   0x698098d8, 0x8b44f7af, 0xffff5bb1, 0x895cd7be,
   0x6b901122, 0xfd987193, 0xa679438e, 0x49b40821,
   0xf61e2562, 0xc040b340, 0x265e5a51, 0xe9b6c7aa,
   0xd62f105d, 0x02441453, 0xd8a1e681, 0xe7d3fbc8,
   0x21e1cde6, 0xc33707d6, 0xf4d50d87, 0x455a14ed,
   0xa9e3e905, 0xfcefa3f8, 0x676f02d9, 0x8d2a4c8a,
   0xfffa3942, 0x8771f681, 0x6d9d6122, 0xfde5380c,
   0xa4beea44, 0x4bdecfa9, 0xf6bb4b60, 0xbebfbc70,
   0x289b7ec6, 0xeaa127fa, 0xd4ef3085, 0x04881d05,
   0xd9d4d039, 0xe6db99e5, 0x1fa27cf8, 0xc4ac5665,
   0xf4292244, 0x432aff97, 0xab9423a7, 0xfc93a039,
   0x655b59c3, 0x8f0ccc92, 0xffeff47d, 0x85845dd1,
   0x6fa87e4f, 0xfe2ce6e0, 0xa3014314, 0x4e0811a1,
   0xf7537e82, 0xbd3af235, 0x2ad7d2bb, 0xeb86d391]

/-- The per-step rotation amounts. -/
def md5S : List Nat :=
  [7, 12, 17, 22, 7, 12, 17, 22, 7, 12, 17, 22, 7, 12, 17, 22,
   5, 9, 14, 20, 5, 9, 14, 20, 5, 9, 14, 20, 5, 9, 14, 20,
   4, 11, 16, 23, 4, 11, 16, 23, 4, 11, 16, 23, 4, 11, 16, 23,
   6, 10, 15, 21, 6, 10, 15, 21, 6, 10, 15, 21, 6, 10, 15, 21]

/-- One MD5 step: given the 16 message words `m`, state `(a,b,c,d)` and the
step index `i`, produce the next state. -/
def md5Step (m : List Nat) (st : Nat × Nat × Nat × Nat) (i : Nat) :
    Nat × Nat × Nat × Nat :=
  let (a, b, c, d) := st
  let (f, g) :=
    if i < 16 then ((b.land c).lor ((not32 b).land d), i)
    else if i < 32 then ((d.land b).lor ((not32 d).land c), (5 * i + 1) % 16)
    else if i < 48 then ((b.xor c).xor d, (3 * i + 5) % 16)
    else (c.xor (b.lor (not32 d)), (7 * i) % 16)
  let f := w32 (f + a + md5K.getD i 0 + m.getD g 0)
  (d, w32 (b + rotl32 f (md5S.getD i 0)), b, c)

/-- Little-endian 32-bit word from four bytes. -/
def leWord (b0 b1 b2 b3 : Nat) : Nat :=
  b0 + 256 * b1 + 65536 * b2 + 16777216 * b3

/-- The 16 little-endian words of a 64-byte block. -/
def toWords : List Nat → List Nat
  | b0 :: b1 :: b2 :: b3 :: rest => leWord b0 b1 b2 b3 :: toWords rest
  | _ => []

/-- Compress one 64-byte block into the running state. -/
def md5Compress (st : Nat × Nat × Nat × Nat) (block : List Nat) :
    Nat × Nat × Nat × Nat :=
  let m := toWords block
  let (a, b, c, d) := (List.range 64).foldl (md5Step m) st
  let (a0, b0, c0, d0) := st
  (w32 (a0 + a), w32 (b0 + b), w32 (c0 + c), w32 (d0 + d))

/-- Fold the compression over the given number of leading 64-byte blocks. -/
def md5Blocks : Nat → List Nat → Nat × Nat × Nat × Nat → Nat × Nat × Nat × Nat
  | 0, _, st => st
  | n + 1, bytes, st =>
    md5Blocks n (bytes.drop 64) (md5Compress st (bytes.take 64))

/-- `n` little-endian bytes of a number. -/
def leBytes : Nat → Nat → List Nat
  | _, 0 => []
  | n, k + 1 => n % 256 :: leBytes (n / 256) k

/-- RFC 1321 padding: `0x80`, zeros to 56 mod 64, then the 64-bit
little-endian bit length. -/
def md5Pad (msg : List Nat) : List Nat :=
  msg ++ 0x80 :: List.replicate ((119 - msg.length % 64) % 64) 0 ++
    leBytes ((msg.length * 8) % 2 ^ 64) 8

/-- `crypto/md5`: the 16-byte digest of a byte sequence. -/
def md5Bytes (msg : List Nat) : List Nat :=
  let padded := md5Pad msg
  let (a, b, c, d) :=
    md5Blocks (padded.length / 64) padded
      (0x67452301, 0xefcdab89, 0x98badcfe, 0x10325476)
  leBytes a 4 ++ leBytes b 4 ++ leBytes c 4 ++ leBytes d 4

/-- One lowercase hex digit. -/
def hexDigit (n : Nat) : Char :=
  if n < 10 then Char.ofNat (48 + n) else Char.ofNat (87 + n)

/-- Go `fmt.Sprintf("%x", bytes)`: two lowercase hex digits per byte. -/
def bytesHex (bs : List Nat) : String :=
  ⟨(bs.map (fun b => [hexDigit (b / 16 % 16), hexDigit (b % 16)])).flatten⟩

/-! ## xmpp.go : saslDigestResponse

Mirrors the Go function.  `h` is `md5.Sum`; Go's `string(h(...))` keeps the
raw digest bytes, so `a1` lives at the byte level; all other concatenations
are ASCII and `[]byte`-converted on hashing. -/

/-- `xmpp.go` `saslDigestResponse(username, realm, passwd, nonce, cnonceStr,
authenticate, digestUri, nonceCountStr)`. -/
def saslDigestResponse (username realm passwd nonce cnonceStr
    authenticate digestUri nonceCountStr : String) : String :=
  let h : List Nat → List Nat := md5Bytes
  let kd : String → String → List Nat := fun secret data =>
    h (strBytes (secret ++ ":" ++ data))
  let a1 : List Nat :=
    h (strBytes (username ++ ":" ++ realm ++ ":" ++ passwd)) ++
      strBytes (":" ++ nonce ++ ":" ++ cnonceStr)
  let a2 : String := authenticate ++ ":" ++ digestUri
  bytesHex (kd (bytesHex (h a1))
    (nonce ++ ":" ++ nonceCountStr ++ ":" ++ cnonceStr ++ ":auth:" ++
      bytesHex (h (strBytes a2))))

/-! ## encoding/base64 (StdEncoding) -/

/-- The standard base64 digit for a 6-bit value. -/
def b64Char (n : Nat) : Char :=
  if n < 26 then Char.ofNat (65 + n)
  else if n < 52 then Char.ofNat (97 + n - 26)
  else if n < 62 then Char.ofNat (48 + n - 52)
  else if n = 62 then '+' else '/'

/-- `base64.StdEncoding.EncodeToString`, producing the character list. -/
def b64EncodeList : List Nat → List Char
  | b0 :: b1 :: b2 :: rest =>
    b64Char (b0 / 4) :: b64Char ((b0 % 4) * 16 + b1 / 16) ::
      b64Char ((b1 % 16) * 4 + b2 / 64) :: b64Char (b2 % 64) ::
      b64EncodeList rest
  | [b0, b1] =>
    [b64Char (b0 / 4), b64Char ((b0 % 4) * 16 + b1 / 16),
     b64Char ((b1 % 16) * 4), '=']
  | [b0] => [b64Char (b0 / 4), b64Char ((b0 % 4) * 16), '=', '=']
  | [] => []

/-- `base64.StdEncoding.EncodeToString` on bytes. -/
def b64Encode (bs : List Nat) : String := ⟨b64EncodeList bs⟩

/-- Value of a standard base64 digit, if it is one. -/
def b64Val (c : Char) : Option Nat :=
  if 'A' ≤ c ∧ c ≤ 'Z' then some (c.toNat - 65)
  else if 'a' ≤ c ∧ c ≤ 'z' then some (c.toNat - 97 + 26)
  else if '0' ≤ c ∧ c ≤ '9' then some (c.toNat - 48 + 52)
  else if c = '+' then some 62
  else if c = '/' then some 63
  else none

/-- `base64.StdEncoding.DecodeString` restricted to well-formed input:
quartets of digits, with `=` padding only at the very end; anything else is
a decode error (`none`). -/
def b64DecodeList : List Char → Option (List Nat)
  | [] => some []
  | c0 :: c1 :: c2 :: c3 :: rest =>
    match b64Val c0, b64Val c1 with
    | some v0, some v1 =>
      if c2 = '=' then
        if c3 = '=' ∧ rest = [] then some [v0 * 4 + v1 / 16] else none
      else
        match b64Val c2 with
        | some v2 =>
          if c3 = '=' then
            if rest = [] then some [v0 * 4 + v1 / 16, (v1 % 16) * 16 + v2 / 4]
            else none
          else
            match b64Val c3 with
            | some v3 =>
              (b64DecodeList rest).map
                (fun bs => (v0 * 4 + v1 / 16) :: ((v1 % 16) * 16 + v2 / 4) ::
                  ((v2 % 4) * 64 + v3) :: bs)
            | none => none
        | none => none
    | _, _ => none
  | _ => none

/-- `base64.StdEncoding.DecodeString` on a string. -/
def b64Decode (s : String) : Option (List Nat) := b64DecodeList s.data

/-! ## xmpp.go : stanza data model (the fields the embedded code reads) -/

/-- `bindBind` (RFC 3920 C.5). -/
structure BindBind where
  resource : String
  jid : String
deriving DecidableEq, Repr

/-- `RosterItem`. -/
structure RosterItem where
  jid : String
  subscription : String
  name : String
  ask : String
deriving DecidableEq, Repr

/-- `Error` (jabber:client error). -/
structure StanzaError where
  code : String
  errType : String
  text : String
deriving DecidableEq, Repr

/-- `IQ` (jabber:client iq).  Go's nil-able pointer payloads become
`Option`s. -/
structure IQ where
  from_ : String := ""
  id : String := ""
  to_ : String := ""
  type : String := ""
  error : Option StanzaError := none
  bind : Option BindBind := none
  roster : Option (List RosterItem) := none
  ping : Option Unit := none
deriving DecidableEq, Repr

/-! ## xmpp.go : bindResource -/

/-- Outcome of `bindResource` after the bind IQ has been sent: either an
error return, a jid assigned to `c.jid`, or a Go nil-pointer dereference. -/
inductive BindOutcome where
  | ok (jid : String)
  | err (msg : String)
  | nilDeref
deriving DecidableEq, Repr

/-- `xmpp.go` `bindResource`, from the point where the server's IQ reply is
decoded (`reply` is the outcome of `c.p.DecodeElement(&iq, nil)`).  The Go
guard `&iq.Bind == nil` takes the address of a struct field and is therefore
never true, so it is omitted; `c.jid = iq.Bind.Jid` reads through the
pointer, a nil dereference when the reply has no bind child.  Note the
reply's `Type` is never inspected. -/
def bindResource (reply : Except String IQ) : BindOutcome :=
  match reply with
  | .error e => .err ("unmarshal <iq>: " ++ e)
  | .ok iq =>
    match iq.bind with
    | some b => .ok b.jid
    | none => .nilDeref

/-- `xmpp.go` `bindSession`, same input convention; this one does check the
reply type. -/
def bindSession (reply : Except String IQ) : Except String Unit :=
  match reply with
  | .error e => .error ("unmarshal <iq>: " ++ e)
  | .ok iq => if iq.type ≠ "result" then .error "bind session error!" else .ok ()

/-! ## xmpp.go : NewClient address computation -/

/-- The address arithmetic at the top of `NewClient` (`xmpp.go` lines
51–74): returns `(dialed address, proxy CONNECT target)`.  `proxy` is the
`HTTP_PROXY` host when the environment variable is set (its `url.Parse`
collaborator is opaque per the spec, so the parsed `url.Host` is the
argument). -/
def newClientAddr (host user : String) (proxy : Option String) :
    String × String :=
  let addr := host
  let host :=
    if goTrimSpace host = "" then
      match goSplitN2 user '@' with
      | [_, d] => d
      | _ => host
    else host
  let host :=
    if (goSplitN2 host ':').length = 1 then host ++ ":5222" else host
  let addr := match proxy with | some p => p | none => addr
  (addr, host)

/-- `utils.go` (repository variant) `ResolveXMPPDomain`: SRV lookup of
`_xmpp-client._tcp.<domain>`, falling back to `(domain, 5222)`.  The DNS
answer is the explicit argument.  `NewClient` never calls this function. -/
def ResolveXMPPDomain (domain : String) (srv : List (String × Nat)) :
    String × Nat :=
  match srv with
  | addr :: _ => addr
  | [] => (domain, 5222)

/-! ## xmpp.go : authenticate -/

/-- Full split on a one-character separator: Go `strings.Split(s, sep)`. -/
def goSplitAllList (l : List Char) (sep : Char) : List (List Char) :=
  match l with
  | [] => [[]]
  | c :: rest =>
    if c = sep then [] :: goSplitAllList rest sep
    else
      match goSplitAllList rest sep with
      | a :: b => (c :: a) :: b
      | [] => [[c]]

/-- The quote-stripping step of the challenge-token loop
(`if kv[1][0] == '"' && kv[1][len(kv[1])-1] == '"'`).  Go panics when the
value is empty ("k=") or a single quote; no claim exercises those inputs and
they are left as the identity here. -/
def stripQuotes (v : List Char) : List Char :=
  if 2 ≤ v.length ∧ v.head? = some '"' ∧ v.getLast? = some '"' then
    (v.drop 1).dropLast
  else v

/-- The token map built from the decoded challenge: split on `,`, trim,
split at the first `=`, strip surrounding quotes.  A Go map assignment
overwrites, so lookups (`tokensGet`) take the last binding. -/
def parseDigestTokens (chars : List Char) : List (String × String) :=
  (goSplitAllList chars ',').foldl
    (fun acc tok =>
      match splitN2List (trimSpaceList tok) '=' with
      | [k, v] => acc ++ [(⟨k⟩, ⟨stripQuotes v⟩)]
      | _ => acc) []

/-- Go map lookup with the zero value `""` for a missing key. -/
def tokensGet (tokens : List (String × String)) (k : String) : String :=
  (((tokens.reverse).find? (fun p => p.1 == k)).map Prod.snd).getD ""

/-- Go bytes viewed as characters (`string(b)` followed by byte-wise
splitting; each byte below 256 is a valid scalar). -/
def bytesChars (bs : List Nat) : List Char :=
  bs.map Char.ofNat

/-- `fmt.Sprintf("%08x", n)`. -/
def sprintf08x (n : Nat) : String :=
  let ds := Nat.toDigits 16 n
  ⟨List.replicate (8 - ds.length) '0' ++ ds⟩

/-- Go `fmt.Sprintf("%v", mechanisms)` for a string slice. -/
def goSprintStrSlice (l : List String) : String :=
  "[" ++ String.intercalate " " l ++ "]"

/-- The `<auth>`/`<response>` elements `authenticate` writes to the server
(the XML envelope around each payload is fixed text). -/
inductive SaslSend where
  | digestInit
  | digestResponse (payload : String)
  | plain (payload : String)
deriving DecidableEq, Repr

/-- The element read by `next(c.p)` after authentication. -/
inductive SaslFinal where
  | success
  | failure (innerLocal : String)
  | other (space local_ : String)
  | readErr (e : String)
deriving DecidableEq, Repr

/-- The DIGEST-MD5 case body of `authenticate`'s mechanism loop, from the
received challenge text to the `<response>` payload; a base64 decode failure
is the early error return. -/
def digestExchange (user password domain challenge cnonceStr : String) :
    Except String SaslSend :=
  match b64Decode challenge with
  | none => .error "illegal base64 data"
  | some b =>
    let tokens := parseDigestTokens (bytesChars b)
    let realm := tokensGet tokens "realm"
    let nonce := tokensGet tokens "nonce"
    let qop := tokensGet tokens "qop"
    let charset := tokensGet tokens "charset"
    let digestUri := "xmpp/" ++ domain
    let nonceCount := sprintf08x 1
    let digest := saslDigestResponse user realm password nonce cnonceStr
      "AUTHENTICATE" digestUri nonceCount
    let message := "username=\"" ++ user ++ "\"" ++
      ", realm=\"" ++ realm ++ "\"" ++
      ", nonce=\"" ++ nonce ++ "\"" ++
      ", cnonce=\"" ++ cnonceStr ++ "\"" ++
      ", nc=" ++ nonceCount ++
      ", qop=" ++ qop ++
      ", digest-uri=\"" ++ digestUri ++ "\"" ++
      ", response=" ++ digest ++
      ", charset=" ++ charset
    .ok (.digestResponse (b64Encode (strBytes message)))

/-- Result of the mechanism loop: the sends it made, the `havePlain` and
`authenticated` flags — or an early error return. -/
inductive AuthLoopOut where
  | done (sends : List SaslSend) (havePlain authenticated : Bool)
  | failed (sends : List SaslSend) (err : String)
deriving DecidableEq, Repr

/-- `authenticate`'s `for _, m := range features.Mechanisms.Mechanism` loop.
A Go `break` inside `switch` leaves only the switch, so the loop continues
past a completed DIGEST-MD5 exchange; each further `DIGEST-MD5` entry runs
the exchange again (with the next challenge/cnonce of the oracles `k`). -/
def authLoop (user password domain : String) (challenges cnonces : Nat → String) :
    List String → Nat → Bool → Bool → AuthLoopOut
  | [], _, havePlain, authenticated => .done [] havePlain authenticated
  | m :: rest, k, havePlain, authenticated =>
    if m = "PLAIN" then authLoop user password domain challenges cnonces rest k true authenticated
    else if m = "DIGEST-MD5" then
      match digestExchange user password domain (challenges k) (cnonces k) with
      | .error e => .failed [.digestInit] e
      | .ok resp =>
        match authLoop user password domain challenges cnonces rest (k + 1) havePlain true with
        | .done sends hp au => .done (.digestInit :: resp :: sends) hp au
        | .failed sends e => .failed (.digestInit :: resp :: sends) e
    else authLoop user password domain challenges cnonces rest k havePlain authenticated

/-- `xmpp.go` `authenticate(features, user, password)`: the advertised
mechanism list drives the loop; afterwards, an unauthenticated run either
fails with the unsupported-mechanism error (no `PLAIN` offered) or sends the
PLAIN `<auth>`; finally the server's success/failure element is read.
Returns the sends and the function's result. -/
def authenticate (mechs : List String) (user password domain : String)
    (challenges cnonces : Nat → String) (finalResp : SaslFinal) :
    List SaslSend × Except String Unit :=
  match authLoop user password domain challenges cnonces mechs 0 false false with
  | .failed sends e => (sends, .error e)
  | .done sends havePlain authenticated =>
    if ¬authenticated ∧ ¬havePlain then
      (sends, .error ("PLAIN authentication is not an option: " ++
        goSprintStrSlice mechs))
    else
      let sends := if authenticated then sends
        else sends ++ [.plain (b64Encode (strBytes ("\x00" ++ user ++ "\x00" ++ password)))]
      match finalResp with
      | .readErr e => (sends, .error e)
      | .success => (sends, .ok ())
      | .failure inner => (sends, .error ("auth failure: " ++ inner))
      | .other space local_ =>
        (sends, .error ("expected <success> or <failure>, got <" ++ local_ ++
          "> in " ++ space))

/-! ## xmppclient.go : events and handlers -/

/-- `Message` (jabber:client). -/
structure Message where
  from_ : String := ""
  id : String := ""
  to_ : String := ""
  type : String := ""
  subject : String := ""
  body : String := ""
  thread : String := ""
deriving DecidableEq, Repr

/-- `Presence` (jabber:client). -/
structure Presence where
  from_ : String := ""
  id : String := ""
  to_ : String := ""
  type : String := ""
  lang : String := ""
  show_ : String := ""
  status : String := ""
  priority : String := ""
  error : Option StanzaError := none
deriving DecidableEq, Repr

/-- The stanza values carried in `Event.Stanza interface{}`. -/
inductive Stanza where
  | message (m : Message)
  | presence (p : Presence)
  | iq (q : IQ)
deriving DecidableEq, Repr

/-- `EventType`: `Connection = EventType(0)`, `Stanza = EventType(1)`. -/
inductive EventType where
  | connection
  | stanza
deriving DecidableEq, Repr

/-- `Event{Type, Stanza, Error, Message}`; the Go `error` member is its
text. -/
structure Event where
  type : EventType
  stanza : Option Stanza := none
  error : Option String := none
  message : String := ""
deriving DecidableEq, Repr

/-- A registered `Handler`: its event channel (identified by a number — Go
compares handlers by interface identity), its `Filter` predicate and its
`IsOneTime` flag. -/
structure Handler where
  eventCh : Nat
  filter : Event → Bool
  isOneTime : Bool

/-- `ChatHandler.Filter`. -/
def chatFilter : Event → Bool := fun event =>
  match event.type, event.stanza with
  | .stanza, some (.message m) => m.type == "chat" && m.body.length > 0
  | _, _ => false

/-- `SubscribeHandler.Filter`. -/
def subscribeFilter : Event → Bool := fun event =>
  match event.type, event.stanza with
  | .stanza, some (.presence p) => p.type == "subscribe"
  | _, _ => false

/-- `IqIDHandler.Filter`. -/
def iqIdFilter (iqId : String) : Event → Bool := fun event =>
  match event.type, event.stanza with
  | .stanza, some (.iq q) => q.id == iqId
  | _, _ => false

/-- `ConnErrorHandler.Filter`. -/
def connErrorFilter : Event → Bool := fun event =>
  match event.type with
  | .connection => event.error.isSome
  | _ => false

/-- `NewChatHandler` (not one-time). -/
def NewChatHandler (ch : Nat) : Handler := ⟨ch, chatFilter, false⟩

/-- `NewSubscribeHandler` (not one-time). -/
def NewSubscribeHandler (ch : Nat) : Handler := ⟨ch, subscribeFilter, false⟩

/-- `NewIqIDHandler` (one-time). -/
def NewIqIDHandler (ch : Nat) (iqId : String) : Handler := ⟨ch, iqIdFilter iqId, true⟩

/-- `NewConnErrorHandler` (not one-time). -/
def NewConnErrorHandler (ch : Nat) : Handler := ⟨ch, connErrorFilter, false⟩

/-! ## xmppclient.go : the handler registry and fireHandler -/

/-- `RemoveHandlerByIndex(i)`:
`handlers = append(handlers[0:i], handlers[i+1:]...)`. -/
def RemoveHandlerByIndex (handlers : List Handler) (i : Nat) : List Handler :=
  handlers.eraseIdx i

/-- The countdown loop of `fireHandler`
(`for i := len(copyHandlers) - 1; i >= 0; i--`), in the sequential
semantics: `snapshot` is `copyHandlers`, the first argument `i` counts the
snapshot entries still to visit, `live` is `self.handlers`.  Returns the
final live registry and the deliveries (each matching handler receives the
event on its channel) in the order they were made. -/
def fireStep (event : Event) (snapshot : List Handler) :
    Nat → List Handler → List Handler × List Handler
  | 0, live => (live, [])
  | i + 1, live =>
    match snapshot[i]? with
    | none => fireStep event snapshot i live
    | some h =>
      if h.filter event then
        let rest := fireStep event snapshot i
          (if h.isOneTime then RemoveHandlerByIndex live i else live)
        (rest.1, h :: rest.2)
      else fireStep event snapshot i live

/-- `fireHandler(event)`: snapshot the registry, then run the countdown
loop.  Returns (final registry, deliveries in order). -/
def fireHandler (handlers : List Handler) (event : Event) :
    List Handler × List Handler :=
  fireStep event handlers handlers.length handlers

/-! ## xmppclient.go : startReadMessage -/

/-- One reader-loop iteration of `startReadMessage`: the value of
`self.connected` at the loop head, the outcome of `self.client.Recv()`, and
the value of `self.connected` at the inner error check (it may have changed
concurrently, e.g. by `Disconnect`). -/
structure ReadStep where
  connAtLoop : Bool
  recv : Except String Stanza
  connAtErr : Bool

/-- `startReadMessage`, run over a trace of iterations:
`for self.connected { stanza, err := Recv(); if err != nil { if
self.connected { fire ConnectionError }; break }; fire Stanza }`.
Returns the events fired, in order. -/
def startReadMessage : List ReadStep → List Event
  | [] => []
  | step :: rest =>
    if step.connAtLoop then
      match step.recv with
      | .ok s => ⟨.stanza, some s, none, ""⟩ :: startReadMessage rest
      | .error e =>
        if step.connAtErr then [⟨.connection, none, some e, "receive stanza error"⟩]
        else []
    else []

/-! ## xmppclient.go : handlePingError -/

/-- `ClientConfig`. -/
structure ClientConfig where
  pingEnable : Bool := false
  pingErrorTimes : Nat := 0
  pingInterval : Nat := 0
  reconnectEnable : Bool := false
  reconnectTimes : Nat := 0
deriving DecidableEq, Repr

/-- The `for reconnectTimes < self.config.ReconnectTimes` loop of
`handlePingError`.  `connectOk n` tells whether the `n`-th
`Connect(host, jid, password)` attempt succeeds; the fuel is the number of
iterations the guard still allows.  Returns (attempt numbers, sleeps in
seconds after failed attempts, success flag, final value of the global
`reconnectTimes` — reset to `0` by a successful `Connect`). -/
def reconnectLoop (connectOk : Nat → Bool) :
    Nat → Nat → List Nat × List Nat × Bool × Nat
  | 0, rt => ([], [], false, rt)
  | fuel + 1, rt =>
    let rt2 := rt + 1
    if connectOk rt2 then ([rt2], [], true, 0)
    else
      let rest := reconnectLoop connectOk fuel rt2
      (rt2 :: rest.1, rt2 * 5 :: rest.2.1, rest.2.2.1, rest.2.2.2)

/-- The observable outcome of one `handlePingError` run. -/
structure PingErrorRun where
  attempts : List Nat
  sleeps : List Nat
  events : List Event
  reconnected : Bool
  finalReconnectTimes : Nat
deriving DecidableEq, Repr

/-- `handlePingError(err)`: after `Disconnect`, either fire the plain ping
timeout event (reconnection disabled), or run the reconnect loop and on
exhaustion fire the reconnect-failed event (note the source's spelling
`"retring"`).  On success the code re-issues the roster request and
presence; no event is fired.  `errText` is `err`'s text and
`reconnectTimes` the entry value of the global counter. -/
def handlePingError (config : ClientConfig) (errText : String)
    (connectOk : Nat → Bool) (reconnectTimes : Nat) : PingErrorRun :=
  if ¬config.reconnectEnable then
    ⟨[], [], [⟨.connection, none, some errText, "Ping timeout!"⟩], false,
      reconnectTimes⟩
  else
    let (as, ss, suc, fin) :=
      reconnectLoop connectOk (config.reconnectTimes - reconnectTimes)
        reconnectTimes
    if ¬suc then
      ⟨as, ss, [⟨.connection, none, some errText,
        "Ping timeout and reconnect failed after retring " ++
          toString config.reconnectTimes ++ " times"⟩], false, fin⟩
    else ⟨as, ss, [], true, fin⟩

/-! ## Theorems settling the claims -/

set_option maxRecDepth 200000 in
/-- C3: the RFC 2831 test vector.  `saslDigestResponse("chris",
"elwood.innosoft.com", "secret", "OA6MG9tEQGm2hh", "OA6MHXh6VqTrRk",
"AUTHENTICATE", "imap/elwood.innosoft.com", "00000001")` equals
`d388dad90d4bbd760a152321f2143af7`, the computation taking `A1` as the raw
16-byte MD5 of `user:realm:password` concatenated with the textual
`:nonce:cnonce` tail. -/
theorem saslDigestResponse_rfc2831_vector :
    saslDigestResponse "chris" "elwood.innosoft.com" "secret" "OA6MG9tEQGm2hh"
      "OA6MHXh6VqTrRk" "AUTHENTICATE" "imap/elwood.innosoft.com" "00000001" =
      "d388dad90d4bbd760a152321f2143af7" := by
  decide

/-- C4 (code bug): `NewClient` dials `addr`, which is assigned from the
`host` argument before the blank-host fallback and the `:5222` defaulting
run (those only mutate the variable later used as the HTTP CONNECT target).
So with a blank `host` the dialed address is the empty string — no SRV
resolution of the JID's domainpart happens (`ResolveXMPPDomain` is never
called) — and a port-less `host` is dialed without `:5222`, contradicting
`NewClient`'s own doc comment. -/
theorem newClient_dial_addr_bug :
    (newClientAddr "" "romeo@example.net" none).1 = "" ∧
    (newClientAddr "example.com" "romeo@example.net" none).1 = "example.com" ∧
    (newClientAddr "example.com" "romeo@example.net" none).2 = "example.com:5222" ∧
    ("example.com" : String) ≠ "example.com:5222" ∧
    ("" : String) ≠ "example.net:5222" := by
  decide

/-- C1 (counterexample): it is not the case that a bind reply whose type is
not `result` makes `bindResource` return an error — the function never
inspects the reply's type.  Witnessed by an IQ of type `error` carrying a
bind child: the code accepts it and assigns the jid. -/
theorem bindResource_ignores_reply_type_cex :
    ¬ (∀ iq : IQ, iq.type ≠ "result" →
        ∃ e, bindResource (.ok iq) = .err e) := by
  intro h
  obtain ⟨e, he⟩ :=
    h { type := "error", bind := some ⟨"", "romeo@example.net/balcony"⟩ }
      (by decide)
  simp [bindResource] at he

/-- C1 (amended): `bindResource` ignores the reply's IQ type entirely:
whenever the decoded reply carries a `bind` child, its jid is assigned to
the connection's bound JID field, whatever the type; no bind-failed error is
returned for non-`result` replies (only `bindSession` checks the type). -/
theorem bindResource_assigns_bind_jid (iq : IQ) (b : BindBind)
    (h : iq.bind = some b) : bindResource (.ok iq) = .ok b.jid := by
  simp [bindResource, h]

/-- Witness for C1's amended theorem: a type-`error` reply with a bind child
still assigns the jid. -/
theorem bindResource_assigns_bind_jid_witness :
    (IQ.mk "" "" "" "error" none (some (BindBind.mk "" "juliet@capulet.com/balcony")) none none).bind = some (BindBind.mk "" "juliet@capulet.com/balcony") ∧
    bindResource (.ok (IQ.mk "" "" "" "error" none (some (BindBind.mk "" "juliet@capulet.com/balcony")) none none)) = .ok "juliet@capulet.com/balcony" :=
  ⟨rfl, bindResource_assigns_bind_jid _ _ rfl⟩

/-- C5 (counterexample): `GetDomain` splits the trimmed input at the first
`@` and returns the whole suffix, so a full JID with a resource yields
`D/R`, not `D`; and an empty domainpart (`juliet@`) yields `""` with no
error. -/
theorem getDomain_resource_cex :
    GetDomain "juliet@capulet.com/balcony" = .ok "capulet.com/balcony" ∧
    (Except.ok "capulet.com/balcony" : Except String String) ≠
      .ok "capulet.com" ∧
    GetDomain "juliet@" = .ok "" := by
  refine ⟨rfl, ?_, rfl⟩
  intro h
  injection h with h2
  exact absurd h2 (by decide)

/-- C10 (counterexample): the alphabet constant has 56 characters, not 57,
so `rand.Intn(len(alpha)-1)` draws from 55 effective characters, not 56
(the headline fact — that the excluded final index holds `'9'` — is proved
separately). -/
theorem alpha_length_cex :
    alphaStr.length = 56 ∧ alphaStr.length ≠ 57 ∧
    alphaStr.length - 1 ≠ 56 ∧ alphaStr.data.getLast? = some '9' := by
  decide

/-- Every effective draw of `randChar` — an index strictly below
`len(alpha)-1` — lands on a character other than `'9'`. -/
lemma randChar_ne_nine (d : Fin (alphaStr.length - 1)) : randChar d ≠ '9' := by
  revert d
  decide

/-- No character produced by the `RandomString` loop body is `'9'`. -/
lemma randomStringAux_no_nine :
    ∀ (draws : List (Fin (alphaStr.length - 1))) (l : Nat) (temp : Option Char),
      ∀ c ∈ randomStringAux draws l temp, c ≠ '9' := by
  intro draws
  induction draws with
  | nil =>
    intro l temp c hc
    cases l <;> simp [randomStringAux] at hc
  | cons d ds ih =>
    intro l temp c hc
    cases l with
    | zero => simp [randomStringAux] at hc
    | succ l =>
      simp only [randomStringAux] at hc
      split at hc
      · exact ih _ _ c hc
      · rcases List.mem_cons.mp hc with h | h
        · exact h ▸ randChar_ne_nine d
        · exact ih _ _ c h

/-- C10 (amended): every string `RandomString` returns is free of the
character `'9'` — `randChar` draws `rand.Intn(len(alpha)-1)`, which excludes
the final index of the (56-character) alphabet constant, leaving an
effective alphabet of 55 characters whose excluded member is `'9'`. -/
theorem randomString_no_nine (draws : List (Fin (alphaStr.length - 1)))
    (l : Nat) : ∀ c ∈ (RandomString draws l).data, c ≠ '9' := by
  intro c hc
  exact randomStringAux_no_nine draws l none c hc

/-- Witness for C10's theorem at a concrete draw list. -/
theorem randomString_no_nine_witness :
    'a' ∈ (RandomString [(⟨0, by decide⟩ : Fin (alphaStr.length - 1))] 1).data ∧
    'a' ≠ '9' :=
  ⟨by decide,
    randomString_no_nine [(⟨0, by decide⟩ : Fin (alphaStr.length - 1))] 1 'a'
      (by decide)⟩

/-! ## List lemmas for the JID-parsing claims -/

/-- Index of the separator when it first occurs right after a
separator-free prefix. -/
lemma goIndexChar_append (xs : List Char) (sep : Char) (ys : List Char)
    (h : sep ∉ xs) : goIndexChar (xs ++ sep :: ys) sep = some xs.length := by
  induction xs with
  | nil => simp [goIndexChar]
  | cons c rest ih =>
    have hc : ¬(c = sep) := fun e => h (by simp [e])
    simp only [List.cons_append, goIndexChar, if_neg hc]
    rw [List.append_eq, ih (fun m => h (List.mem_cons_of_mem _ m))]
    rfl

/-- A separator-free list has no separator index. -/
lemma goIndexChar_none (xs : List Char) (sep : Char) (h : sep ∉ xs) :
    goIndexChar xs sep = none := by
  induction xs with
  | nil => rfl
  | cons c rest ih =>
    have hc : ¬(c = sep) := fun e => h (by simp [e])
    simp only [goIndexChar, if_neg hc]
    rw [ih (fun m => h (List.mem_cons_of_mem _ m))]
    rfl

/-- `SplitN(·, sep, 2)` around the first separator. -/
lemma splitN2List_append (xs : List Char) (sep : Char) (ys : List Char)
    (h : sep ∉ xs) : splitN2List (xs ++ sep :: ys) sep = [xs, ys] := by
  induction xs with
  | nil => simp [splitN2List]
  | cons c rest ih =>
    have hc : ¬(c = sep) := fun e => h (by simp [e])
    simp only [List.cons_append, splitN2List, if_neg hc]
    rw [List.append_eq, ih (fun m => h (List.mem_cons_of_mem _ m))]

/-- `SplitN(·, sep, 2)` on a separator-free list. -/
lemma splitN2List_eq_single (xs : List Char) (sep : Char) (h : sep ∉ xs) :
    splitN2List xs sep = [xs] := by
  induction xs with
  | nil => rfl
  | cons c rest ih =>
    have hc : ¬(c = sep) := fun e => h (by simp [e])
    simp only [splitN2List, if_neg hc]
    rw [ih (fun m => h (List.mem_cons_of_mem _ m))]

/-- `dropWhile` keeps a list whose head already fails the predicate; in
particular a list all of whose members fail it. -/
lemma dropWhile_eq_self_of_all (p : Char → Bool) (l : List Char)
    (h : ∀ c ∈ l, p c = false) : l.dropWhile p = l := by
  cases l with
  | nil => rfl
  | cons c rest => simp [List.dropWhile, h c (by simp)]

/-- `TrimSpace` is the identity on space-free input. -/
lemma trimSpaceList_eq_self (l : List Char)
    (h : ∀ c ∈ l, isGoSpace c = false) : trimSpaceList l = l := by
  unfold trimSpaceList
  rw [dropWhile_eq_self_of_all _ _ h,
    dropWhile_eq_self_of_all _ _ (fun c hc => h c (List.mem_reverse.mp hc)),
    List.reverse_reverse]

/-- `ToBareJID` around the first slash. -/
lemma toBareJID_concat (x y : List Char) (hx : '/' ∉ x) :
    ToBareJID ⟨x ++ '/' :: y⟩ = ⟨x⟩ := by
  show (match goIndexChar (x ++ '/' :: y) '/' with
    | none => (⟨x ++ '/' :: y⟩ : String)
    | some i => ⟨(x ++ '/' :: y).take i⟩) = (⟨x⟩ : String)
  rw [goIndexChar_append x '/' y hx]
  simp [List.take_left]

/-- `ToBareJID` is the identity on slash-free input. -/
lemma toBareJID_no_slash (x : List Char) (hx : '/' ∉ x) :
    ToBareJID ⟨x⟩ = ⟨x⟩ := by
  show (match goIndexChar x '/' with
    | none => (⟨x⟩ : String)
    | some i => ⟨x.take i⟩) = (⟨x⟩ : String)
  rw [goIndexChar_none x '/' hx]

/-- `GetDomain` around the first `@` of space-free input. -/
lemma getDomain_concat (x y : List Char) (hx : '@' ∉ x)
    (hsp : ∀ c ∈ x ++ '@' :: y, isGoSpace c = false) :
    GetDomain ⟨x ++ '@' :: y⟩ = .ok ⟨y⟩ := by
  unfold GetDomain goTrimSpace goSplitN2
  show (match (splitN2List (trimSpaceList (x ++ '@' :: y)) '@').map
      (fun l => (⟨l⟩ : String)) with
    | [_, d] => Except.ok d
    | _ => Except.error "invalid jid!") = _
  rw [trimSpaceList_eq_self _ hsp, splitN2List_append x '@' y hx]
  rfl

/-- `GetDomain` errors on input whose trimmed form has no `@`. -/
lemma getDomain_no_at (s : String) (h : '@' ∉ (goTrimSpace s).data) :
    GetDomain s = .error "invalid jid!" := by
  unfold GetDomain goSplitN2
  show (match (splitN2List (goTrimSpace s).data '@').map
      (fun l => (⟨l⟩ : String)) with
    | [_, d] => Except.ok d
    | _ => Except.error "invalid jid!") = _
  rw [splitN2List_eq_single _ '@' h]
  rfl

/-- When the separator occurs, `SplitN(·, ·, 2)` yields two pieces. -/
lemma splitN2List_len2 (xs : List Char) (sep : Char) (h : sep ∈ xs) :
    ∃ a b, splitN2List xs sep = [a, b] := by
  induction xs with
  | nil => cases h
  | cons c rest ih =>
    by_cases hc : c = sep
    · exact ⟨[], rest, by simp [splitN2List, hc]⟩
    · obtain ⟨a, b, hab⟩ := ih (by
        rcases List.mem_cons.mp h with h1 | h1
        · exact absurd h1.symm hc
        · exact h1)
      refine ⟨c :: a, b, ?_⟩
      simp only [splitN2List, if_neg hc, hab]

/-- `GetDomain` succeeds on input whose trimmed form contains `@`. -/
lemma getDomain_ok_of_at (s : String) (h : '@' ∈ (goTrimSpace s).data) :
    ∃ d, GetDomain s = .ok d := by
  obtain ⟨a, b, hab⟩ := splitN2List_len2 _ '@' h
  refine ⟨⟨b⟩, ?_⟩
  unfold GetDomain goSplitN2
  show (match (splitN2List (goTrimSpace s).data '@').map
      (fun l => (⟨l⟩ : String)) with
    | [_, d] => Except.ok d
    | _ => Except.error "invalid jid!") = _
  rw [hab]
  rfl

/-- A character satisfying the side condition of the JID-parsing claim:
not Go whitespace, not `@`, not `/`. -/
def jidChar (c : Char) : Bool :=
  !isGoSpace c && c != '@' && c != '/'

/-- C5 (amended): for a JID `L@D/R` whose localpart and domainpart are free
of whitespace, `@` and `/` (and whose resource is space-free), `ToBareJID`
strips at the first `/`, producing `L@D`; `GetDomain` returns everything
after the first `@` — `D/R` when a resource is present, `D` otherwise — and
returns the invalid-jid error exactly when the trimmed input contains no
`@` at all (so an empty domainpart yields `""` without error). -/
theorem jid_parsing_amended (l d r : String)
    (hl : l.data.all jidChar = true)
    (hd : d.data.all jidChar = true)
    (hr : r.data.all (fun c => !isGoSpace c) = true) :
    ToBareJID (l ++ "@" ++ d ++ "/" ++ r) = l ++ "@" ++ d ∧
    ToBareJID (l ++ "@" ++ d) = l ++ "@" ++ d ∧
    GetDomain (l ++ "@" ++ d ++ "/" ++ r) = .ok (d ++ "/" ++ r) ∧
    GetDomain (l ++ "@" ++ d) = .ok d ∧
    (∀ s : String,
      GetDomain s = .error "invalid jid!" ↔ '@' ∉ (goTrimSpace s).data) := by
  have hl' := List.all_eq_true.mp hl
  have hd' := List.all_eq_true.mp hd
  have hr' := List.all_eq_true.mp hr
  have hlS : ∀ c ∈ l.data, isGoSpace c = false ∧ c ≠ '@' ∧ c ≠ '/' := by
    intro c hc
    have := hl' c hc
    simpa [jidChar, and_assoc] using this
  have hdS : ∀ c ∈ d.data, isGoSpace c = false ∧ c ≠ '@' ∧ c ≠ '/' := by
    intro c hc
    have := hd' c hc
    simpa [jidChar, and_assoc] using this
  have hrS : ∀ c ∈ r.data, isGoSpace c = false := by
    intro c hc
    simpa using hr' c hc
  have hlAt : '@' ∉ l.data := fun m => (hlS _ m).2.1 rfl
  have hlSl : '/' ∉ l.data := fun m => (hlS _ m).2.2 rfl
  have hdSl : '/' ∉ d.data := fun m => (hdS _ m).2.2 rfl
  have e3 : l ++ "@" ++ d ++ "/" ++ r =
      (⟨(l.data ++ '@' :: d.data) ++ '/' :: r.data⟩ : String) := by
    apply String.ext
    rw [String.data_append, String.data_append, String.data_append,
      String.data_append,
      show ("@" : String).data = ['@'] from rfl,
      show ("/" : String).data = ['/'] from rfl]
    simp
  have e2 : l ++ "@" ++ d = (⟨l.data ++ '@' :: d.data⟩ : String) := by
    apply String.ext
    rw [String.data_append, String.data_append,
      show ("@" : String).data = ['@'] from rfl]
    simp
  have hnos : '/' ∉ l.data ++ '@' :: d.data := by
    intro m
    rcases List.mem_append.mp m with m | m
    · exact hlSl m
    · rcases List.mem_cons.mp m with m | m
      · cases m
      · exact hdSl m
  refine ⟨?_, ?_, ?_, ?_, ?_⟩
  · rw [e3, e2]
    exact toBareJID_concat _ _ hnos
  · rw [e2]
    exact toBareJID_no_slash _ hnos
  · rw [e3]
    have := getDomain_concat l.data (d.data ++ '/' :: r.data) hlAt (by
      intro c hc
      rcases List.mem_append.mp hc with m | m
      · exact (hlS _ m).1
      · rcases List.mem_cons.mp m with m | m
        · subst m; rfl
        · rcases List.mem_append.mp m with m | m
          · exact (hdS _ m).1
          · rcases List.mem_cons.mp m with m | m
            · subst m; rfl
            · exact hrS _ m)
    rw [show l.data ++ '@' :: (d.data ++ '/' :: r.data) =
        (l.data ++ '@' :: d.data) ++ '/' :: r.data by simp] at this
    rw [this]
    apply congrArg
    apply String.ext
    rw [String.data_append, String.data_append,
      show ("/" : String).data = ['/'] from rfl]
    simp
  · rw [e2]
    exact getDomain_concat l.data d.data hlAt (by
      intro c hc
      rcases List.mem_append.mp hc with m | m
      · exact (hlS _ m).1
      · rcases List.mem_cons.mp m with m | m
        · subst m; rfl
        · exact (hdS _ m).1)
  · intro s
    constructor
    · intro he hm
      obtain ⟨dm, hdm⟩ := getDomain_ok_of_at s hm
      rw [he] at hdm
      cases hdm
    · exact getDomain_no_at s

/-- Witness for C5's amended theorem at `juliet@capulet.com/balcony`. -/
theorem jid_parsing_amended_witness :
    ("juliet" : String).data.all jidChar = true ∧
    ("capulet.com" : String).data.all jidChar = true ∧
    ("balcony" : String).data.all (fun c => !isGoSpace c) = true ∧
    ToBareJID ("juliet" ++ "@" ++ "capulet.com" ++ "/" ++ "balcony") =
      "juliet" ++ "@" ++ "capulet.com" ∧
    GetDomain ("juliet" ++ "@" ++ "capulet.com" ++ "/" ++ "balcony") =
      .ok ("capulet.com" ++ "/" ++ "balcony") :=
  ⟨by decide, by decide, by decide,
    (jid_parsing_amended "juliet" "capulet.com" "balcony" (by decide)
      (by decide) (by decide)).1,
    (jid_parsing_amended "juliet" "capulet.com" "balcony" (by decide)
      (by decide) (by decide)).2.2.1⟩

/-! ## Lemmas on fireHandler -/

/-- Erasing at the index right after a prefix removes the element there. -/
lemma eraseIdx_append_cons {α : Type} (A : List α) (x : α) (B : List α) :
    (A ++ x :: B).eraseIdx A.length = A ++ B := by
  induction A with
  | nil => rfl
  | cons a A ih => simpa [List.eraseIdx] using ih

/-- Lookup at the index right after a prefix finds the element there. -/
lemma getElem?_append_cons {α : Type} (A : List α) (x : α) (B : List α) :
    (A ++ x :: B)[A.length]? = some x := by
  induction A with
  | nil => simp
  | cons a A ih => simpa using ih

/-- A handler survives `fireHandler` iff it did not both accept the event
and carry the one-time flag. -/
def keepHandler (event : Event) (h : Handler) : Bool :=
  !(h.filter event && h.isOneTime)

/-- Invariant of the countdown loop: visiting the first `i` snapshot entries
(tail to head) over a live list that is the snapshot's `i`-prefix followed
by any residue `B` removes exactly the accepting one-time handlers of the
prefix and delivers to the accepting handlers of the prefix, newest first. -/
lemma fireStep_characterization (event : Event) (snap : List Handler) :
    ∀ i, i ≤ snap.length → ∀ B,
      fireStep event snap i (snap.take i ++ B) =
        ((snap.take i).filter (keepHandler event) ++ B,
          ((snap.take i).reverse).filter (fun h => h.filter event)) := by
  intro i
  induction i with
  | zero => intro _ B; simp [fireStep]
  | succ i ih =>
    intro hle B
    have hi : i < snap.length := hle
    have hsome : snap[i]? = some snap[i] := List.getElem?_eq_getElem hi
    have htake : snap.take (i + 1) = snap.take i ++ [snap[i]] := by
      rw [List.take_succ, hsome]
      rfl
    have ih1 := ih (le_of_lt hi) B
    have ih2 := ih (le_of_lt hi) (snap[i] :: B)
    have hlen : (snap.take i).length = i := by
      rw [List.length_take]
      exact min_eq_left (le_of_lt hi)
    have herase : RemoveHandlerByIndex (snap.take i ++ snap[i] :: B) i =
        snap.take i ++ B := by
      have h := eraseIdx_append_cons (snap.take i) snap[i] B
      rw [hlen] at h
      exact h
    rw [htake, List.append_assoc, List.singleton_append]
    set A := snap.take i with hA
    set y := snap[i] with hy
    show fireStep event snap (i + 1) (A ++ y :: B) = _
    simp only [fireStep, hsome]
    by_cases hf : y.filter event = true
    · rw [if_pos hf]
      by_cases ho : y.isOneTime = true
      · rw [if_pos ho, herase, ih1]
        simp [List.filter_append, List.reverse_append, keepHandler, hf, ho]
      · rw [if_neg ho, ih2]
        simp [List.filter_append, List.reverse_append, keepHandler, hf, ho]
    · rw [if_neg hf, ih2]
      simp [List.filter_append, List.reverse_append, keepHandler, hf]

/-- `fireHandler` in closed form: the surviving registry keeps exactly the
handlers that did not accept-and-one-shot, and the deliveries are the
accepting handlers, newest first. -/
lemma fireHandler_eq (handlers : List Handler) (event : Event) :
    fireHandler handlers event =
      (handlers.filter (keepHandler event),
        handlers.reverse.filter (fun h => h.filter event)) := by
  have h := fireStep_characterization event handlers handlers.length
    (le_refl _) []
  rw [List.take_length, List.append_nil, List.append_nil] at h
  exact h

/-- C6: whenever `fireHandler` delivers an event to a one-time handler, that
handler is gone from the live registry afterwards, and no event fired later
over the resulting registry is ever delivered to it.  (The code removes it
via `RemoveHandlerByIndex` with the snapshot index; iterating tail to head
keeps the prefix of the live list aligned with the snapshot, so the indexed
removal deletes exactly the delivered handler.) -/
theorem fireHandler_one_shot_removed (handlers : List Handler) (event : Event)
    (h : Handler) (hone : h.isOneTime = true)
    (hdel : h ∈ (fireHandler handlers event).2) :
    h ∉ (fireHandler handlers event).1 ∧
    ∀ event2 : Event,
      h ∉ (fireHandler ((fireHandler handlers event).1) event2).2 := by
  have hfe := fireHandler_eq handlers event
  have hfil : h.filter event = true := by
    rw [hfe] at hdel
    exact (List.mem_filter.mp hdel).2
  have hkeep : keepHandler event h = false := by
    simp [keepHandler, hfil, hone]
  constructor
  · intro hmem
    rw [hfe] at hmem
    have hk := (List.mem_filter.mp hmem).2
    rw [hkeep] at hk
    cases hk
  · intro event2 hmem
    rw [fireHandler_eq] at hmem
    have hmem2 := List.mem_reverse.mp (List.mem_filter.mp hmem).1
    rw [hfe] at hmem2
    have hk := (List.mem_filter.mp hmem2).2
    rw [hkeep] at hk
    cases hk

/-- Witness for C6: a one-time IqID handler receives a matching IQ event and
is absent from the registry afterwards. -/
theorem fireHandler_one_shot_removed_witness :
    (NewIqIDHandler 7 "ping1").isOneTime = true ∧
    NewIqIDHandler 7 "ping1" ∈
      (fireHandler [NewIqIDHandler 7 "ping1"]
        (Event.mk EventType.stanza
          (some (Stanza.iq (IQ.mk "" "ping1" "" "" none none none none)))
          none "")).2 ∧
    NewIqIDHandler 7 "ping1" ∉
      (fireHandler [NewIqIDHandler 7 "ping1"]
        (Event.mk EventType.stanza
          (some (Stanza.iq (IQ.mk "" "ping1" "" "" none none none none)))
          none "")).1 := by
  have hm : NewIqIDHandler 7 "ping1" ∈
      (fireHandler [NewIqIDHandler 7 "ping1"]
        (Event.mk EventType.stanza
          (some (Stanza.iq (IQ.mk "" "ping1" "" "" none none none none)))
          none "")).2 := by
    show NewIqIDHandler 7 "ping1" ∈ [NewIqIDHandler 7 "ping1"]
    exact List.mem_singleton.mpr rfl
  exact ⟨rfl, hm, (fireHandler_one_shot_removed _ _ _ rfl hm).1⟩

/-- C7: over a registry ending in H1 then H2 (the order they were added),
`fireHandler` walks the snapshot from tail to head, so when both filters
accept the event the deliveries begin with H2 and then H1, before any
older handler. -/
theorem fireHandler_newest_first (handlers : List Handler) (h1 h2 : Handler)
    (event : Event) (hf1 : h1.filter event = true)
    (hf2 : h2.filter event = true) :
    (fireHandler (handlers ++ [h1, h2]) event).2 =
      h2 :: h1 :: (fireHandler handlers event).2 := by
  rw [fireHandler_eq, fireHandler_eq]
  simp [List.reverse_append, hf1, hf2]

/-- Witness for C7: two chat handlers added in order 1 then 2 both accept a
chat message; the deliveries are handler 2 first, then handler 1. -/
theorem fireHandler_newest_first_witness :
    (NewChatHandler 1).filter
      (Event.mk EventType.stanza
        (some (Stanza.message (Message.mk "" "" "" "chat" "" "hi" "")))
        none "") = true ∧
    (NewChatHandler 2).filter
      (Event.mk EventType.stanza
        (some (Stanza.message (Message.mk "" "" "" "chat" "" "hi" "")))
        none "") = true ∧
    (fireHandler ([] ++ [NewChatHandler 1, NewChatHandler 2])
      (Event.mk EventType.stanza
        (some (Stanza.message (Message.mk "" "" "" "chat" "" "hi" "")))
        none "")).2 =
      NewChatHandler 2 :: NewChatHandler 1 ::
        (fireHandler []
          (Event.mk EventType.stanza
            (some (Stanza.message (Message.mk "" "" "" "chat" "" "hi" "")))
            none "")).2 :=
  ⟨rfl, rfl, fireHandler_newest_first [] _ _ _ rfl rfl⟩

/-! ## Theorems on startReadMessage and handlePingError -/

/-- The claim's condition on a reader trace: the loop runs until a receive
error occurs while the loop was entered live, and at that moment the
connection is still marked live.  (Formalisation of "the connection is
still marked live at the moment the receive error fires".) -/
def liveErrorStop : List ReadStep → Bool
  | [] => false
  | step :: rest =>
    if step.connAtLoop then
      match step.recv with
      | .ok _ => liveErrorStop rest
      | .error _ => step.connAtErr
    else false

/-- C9: the reader loop fires a connection-error event (message
`"receive stanza error"`) iff a receive error occurs while the connection
is still marked live at that moment; in particular a reader stopped by a
local disconnect (live flag already cleared) emits no connection-error
event, and every connection event it ever emits carries that message and a
non-nil error. -/
theorem startReadMessage_error_iff_live (trace : List ReadStep) :
    ((∃ e ∈ startReadMessage trace, e.type = EventType.connection) ↔
      liveErrorStop trace = true) ∧
    ∀ e ∈ startReadMessage trace, e.type = EventType.connection →
      e.error.isSome = true ∧ e.message = "receive stanza error" := by
  induction trace with
  | nil =>
    constructor
    · constructor
      · rintro ⟨e, he, -⟩
        simp [startReadMessage] at he
      · intro h
        cases h
    · intro e he
      simp [startReadMessage] at he
  | cons step rest ih =>
    by_cases hc : step.connAtLoop = true
    · cases hr : step.recv with
      | ok s =>
        constructor
        · constructor
          · rintro ⟨e, he, hty⟩
            simp only [startReadMessage, if_pos hc, hr] at he
            rcases List.mem_cons.mp he with h1 | h1
            · rw [h1] at hty
              cases hty
            · simp only [liveErrorStop, if_pos hc, hr]
              exact ih.1.mp ⟨e, h1, hty⟩
          · intro h
            simp only [liveErrorStop, if_pos hc, hr] at h
            obtain ⟨e, he, hty⟩ := ih.1.mpr h
            refine ⟨e, ?_, hty⟩
            simp only [startReadMessage, if_pos hc, hr]
            exact List.mem_cons_of_mem _ he
        · intro e he hty
          simp only [startReadMessage, if_pos hc, hr] at he
          rcases List.mem_cons.mp he with h1 | h1
          · rw [h1] at hty
            cases hty
          · exact ih.2 e h1 hty
      | error msg =>
        by_cases hel : step.connAtErr = true
        · constructor
          · constructor
            · intro _
              simp [liveErrorStop, if_pos hc, hr, hel]
            · intro _
              refine ⟨⟨.connection, none, some msg, "receive stanza error"⟩, ?_, rfl⟩
              simp [startReadMessage, if_pos hc, hr, hel]
          · intro e he hty
            simp only [startReadMessage, if_pos hc, hr, if_pos hel] at he
            rcases List.mem_cons.mp he with h1 | h1
            · rw [h1]
              exact ⟨rfl, rfl⟩
            · cases h1
        · constructor
          · constructor
            · rintro ⟨e, he, -⟩
              simp [startReadMessage, if_pos hc, hr, hel] at he
            · intro h
              simp only [liveErrorStop, if_pos hc, hr] at h
              exact absurd h hel
          · intro e he
            simp [startReadMessage, if_pos hc, hr, hel] at he
    · constructor
      · constructor
        · rintro ⟨e, he, -⟩
          simp [startReadMessage, hc] at he
        · intro h
          simp only [liveErrorStop] at h
          rw [if_neg hc] at h
          cases h
      · intro e he
        simp [startReadMessage, hc] at he

/-- Witness for C9: a live receive error fires the event; the same trace
with the live flag cleared at the error check fires nothing. -/
theorem startReadMessage_error_iff_live_witness :
    liveErrorStop [ReadStep.mk true (.error "boom") true] = true ∧
    (∃ e ∈ startReadMessage [ReadStep.mk true (.error "boom") true],
      e.type = EventType.connection) ∧
    startReadMessage [ReadStep.mk true (.error "boom") false] = [] :=
  ⟨rfl,
    (startReadMessage_error_iff_live
      [ReadStep.mk true (.error "boom") true]).1.mpr rfl,
    rfl⟩

/-- The reconnect loop when every attempt fails: the guard admits exactly
`fuel` iterations, each attempt `rt+k+1` is tried and followed by a sleep of
`5 × attempt` seconds, and the loop reports failure. -/
lemma reconnectLoop_all_fail (connectOk : Nat → Bool) :
    ∀ fuel rt, (∀ k, k < fuel → connectOk (rt + k + 1) = false) →
      reconnectLoop connectOk fuel rt =
        ((List.range fuel).map (fun k => rt + k + 1),
          (List.range fuel).map (fun k => (rt + k + 1) * 5),
          false, rt + fuel) := by
  intro fuel
  induction fuel with
  | zero => intro rt _; simp [reconnectLoop]
  | succ fuel ih =>
    intro rt hfail
    have h0 : connectOk (rt + 1) = false := by
      have := hfail 0 (Nat.succ_pos _)
      simpa using this
    have hrest := ih (rt + 1) (fun k hk => by
      have := hfail (k + 1) (Nat.succ_lt_succ hk)
      simpa [Nat.add_assoc, Nat.add_comm, Nat.add_left_comm] using this)
    have e1 : (rt + 1) :: (List.range fuel).map (fun k => rt + 1 + k + 1) =
        (List.range (fuel + 1)).map (fun k => rt + k + 1) := by
      rw [List.range_succ_eq_map, List.map_cons, List.map_map]
      congr 1
      apply List.map_congr_left
      intro a _
      simp only [Function.comp_apply]
      omega
    have e2 : (rt + 1) * 5 ::
        (List.range fuel).map (fun k => (rt + 1 + k + 1) * 5) =
        (List.range (fuel + 1)).map (fun k => (rt + k + 1) * 5) := by
      rw [List.range_succ_eq_map, List.map_cons, List.map_map]
      congr 1
      apply List.map_congr_left
      intro a _
      simp only [Function.comp_apply]
      omega
    have e3 : rt + 1 + fuel = rt + (fuel + 1) := by omega
    simp only [reconnectLoop]
    rw [if_neg (by simp [h0]), hrest]
    show ((rt + 1) :: (List.range fuel).map (fun k => rt + 1 + k + 1),
      (rt + 1) * 5 :: (List.range fuel).map (fun k => (rt + 1 + k + 1) * 5),
      false, rt + 1 + fuel) = _
    rw [← e1, ← e2, e3]

/-- The number of `Connect` attempts never exceeds the iterations the guard
allows. -/
lemma reconnectLoop_attempts_le (connectOk : Nat → Bool) :
    ∀ fuel rt, (reconnectLoop connectOk fuel rt).1.length ≤ fuel := by
  intro fuel
  induction fuel with
  | zero => intro rt; simp [reconnectLoop]
  | succ fuel ih =>
    intro rt
    simp only [reconnectLoop]
    by_cases h : connectOk (rt + 1) = true
    · simp [h]
    · rw [if_neg h]
      simpa using Nat.succ_le_succ (ih (rt + 1))

/-- C8 (amended): with reconnection enabled and every attempt failing,
`handlePingError` tries `Connect` exactly `reconnect_max_attempts` times
(attempt numbers 1..N), sleeps `5 × attempt` seconds after each failed
attempt, and on exhaustion fires a single ConnectionError event whose
message is `"Ping timeout and reconnect failed after retring N times"` (the
source misspells "retrying"); in general the number of attempts never
exceeds `reconnect_max_attempts`. -/
theorem handlePingError_exhaustion (config : ClientConfig) (errText : String)
    (connectOk : Nat → Bool) (hre : config.reconnectEnable = true)
    (hfail : ((List.range config.reconnectTimes).map
      (fun k => connectOk (k + 1))).all (fun b => !b) = true) :
    handlePingError config errText connectOk 0 =
      ⟨(List.range config.reconnectTimes).map (fun k => k + 1),
        (List.range config.reconnectTimes).map (fun k => (k + 1) * 5),
        [⟨.connection, none, some errText,
          "Ping timeout and reconnect failed after retring " ++
            toString config.reconnectTimes ++ " times"⟩],
        false, config.reconnectTimes⟩ ∧
    ∀ (connectOk2 : Nat → Bool) (rt : Nat),
      (handlePingError config errText connectOk2 rt).attempts.length ≤
        config.reconnectTimes - rt := by
  have hfail2 : ∀ k, k < config.reconnectTimes → connectOk (0 + k + 1) = false := by
    intro k hk
    have := List.all_eq_true.mp hfail (connectOk (k + 1))
      (List.mem_map.mpr ⟨k, List.mem_range.mpr hk, rfl⟩)
    simpa using this
  constructor
  · have hloop := reconnectLoop_all_fail connectOk config.reconnectTimes 0 hfail2
    unfold handlePingError
    rw [if_neg (by simp [hre])]
    simp only [Nat.sub_zero, hloop]
    simp
  · intro connectOk2 rt
    unfold handlePingError
    rw [if_neg (by simp [hre])]
    by_cases hs : (reconnectLoop connectOk2 (config.reconnectTimes - rt) rt).2.2.1 = true
    · simp only [hs, if_true]
      show (reconnectLoop connectOk2 (config.reconnectTimes - rt) rt).1.length ≤ _
      exact reconnectLoop_attempts_le _ _ _
    · simp only [hs, Bool.false_eq_true, if_false]
      show (reconnectLoop connectOk2 (config.reconnectTimes - rt) rt).1.length ≤ _
      exact reconnectLoop_attempts_le _ _ _

/-- Witness for C8's amended theorem with three always-failing attempts. -/
theorem handlePingError_exhaustion_witness :
    (ClientConfig.mk true 3 30 true 3).reconnectEnable = true ∧
    ((List.range (ClientConfig.mk true 3 30 true 3).reconnectTimes).map
      (fun k => (fun _ => false : Nat → Bool) (k + 1))).all (fun b => !b) = true ∧
    handlePingError (ClientConfig.mk true 3 30 true 3) "Ping timeout!"
        (fun _ => false) 0 =
      ⟨[1, 2, 3], [5, 10, 15],
        [⟨.connection, none, some "Ping timeout!",
          "Ping timeout and reconnect failed after retring 3 times"⟩],
        false, 3⟩ := by
  refine ⟨rfl, by decide, ?_⟩
  have h := (handlePingError_exhaustion (ClientConfig.mk true 3 30 true 3)
    "Ping timeout!" (fun _ => false) rfl (by decide)).1
  rw [h]
  rfl

/-- C8 (counterexample): the exhaustion message the code fires spells
"retring", not "retrying", so the claimed message text does not match. -/
theorem handlePingError_message_cex :
    (handlePingError (ClientConfig.mk true 3 30 true 3) "Ping timeout!"
        (fun _ => false) 0).events.map (fun e => e.message) =
      ["Ping timeout and reconnect failed after retring 3 times"] ∧
    ("Ping timeout and reconnect failed after retring 3 times" : String) ≠
      "Ping timeout and reconnect failed after retrying 3 times" := by
  constructor
  · rfl
  · decide

/-! ## Theorems on authenticate -/

/-- The sends recorded in a mechanism-loop outcome. -/
def AuthLoopOut.sends : AuthLoopOut → List SaslSend
  | .done s _ _ => s
  | .failed s _ => s

/-- A loop outcome that is either an early error return or carries
`authenticated = true`. -/
def authOk : AuthLoopOut → Prop
  | .done _ _ au => au = true
  | .failed _ _ => True

/-- `digestExchange` either errors or produces a `digestResponse` send —
never a PLAIN one. -/
lemma digestExchange_cases (u p dm c cns : String) :
    (∃ e, digestExchange u p dm c cns = .error e) ∨
    ∃ payload, digestExchange u p dm c cns = .ok (.digestResponse payload) := by
  unfold digestExchange
  cases b64Decode c with
  | none => exact .inl ⟨_, rfl⟩
  | some b => exact .inr ⟨_, rfl⟩

/-- The mechanism loop never emits a PLAIN `<auth>`. -/
lemma authLoop_no_plain (u p dm : String) (ch cn : Nat → String) :
    ∀ (mechs : List String) (k : Nat) (hp au : Bool) (pay : String),
      SaslSend.plain pay ∉ (authLoop u p dm ch cn mechs k hp au).sends := by
  intro mechs
  induction mechs with
  | nil =>
    intro k hp au pay h
    simp [authLoop, AuthLoopOut.sends] at h
  | cons m rest ih =>
    intro k hp au pay h
    simp only [authLoop] at h
    by_cases h1 : m = "PLAIN"
    · rw [if_pos h1] at h
      exact ih _ _ _ _ h
    · rw [if_neg h1] at h
      by_cases h2 : m = "DIGEST-MD5"
      · rw [if_pos h2] at h
        rcases digestExchange_cases u p dm (ch k) (cn k) with ⟨e, he⟩ | ⟨payload, he⟩
        · rw [he] at h
          simp [AuthLoopOut.sends] at h
        · rw [he] at h
          cases hrec : authLoop u p dm ch cn rest (k + 1) hp true with
          | done s hp2 au2 =>
            rw [hrec] at h
            simp only [AuthLoopOut.sends, List.mem_cons] at h
            rcases h with h | h | h
            · cases h
            · cases h
            · exact ih (k + 1) hp true pay (by rw [hrec]; exact h)
          | failed s e =>
            rw [hrec] at h
            simp only [AuthLoopOut.sends, List.mem_cons] at h
            rcases h with h | h | h
            · cases h
            · cases h
            · exact ih (k + 1) hp true pay (by rw [hrec]; exact h)
      · rw [if_neg h2] at h
        exact ih _ _ _ _ h

/-- Once `authenticated` is true it stays true through the rest of the
loop (an early error return counts as settled too). -/
lemma authLoop_authOk (u p dm : String) (ch cn : Nat → String) :
    ∀ (mechs : List String) (k : Nat) (hp : Bool),
      authOk (authLoop u p dm ch cn mechs k hp true) := by
  intro mechs
  induction mechs with
  | nil => intro k hp; simp [authLoop, authOk]
  | cons m rest ih =>
    intro k hp
    simp only [authLoop]
    by_cases h1 : m = "PLAIN"
    · rw [if_pos h1]
      exact ih _ _
    · rw [if_neg h1]
      by_cases h2 : m = "DIGEST-MD5"
      · rw [if_pos h2]
        rcases digestExchange_cases u p dm (ch k) (cn k) with ⟨e, he⟩ | ⟨payload, he⟩
        · rw [he]
          simp [authOk]
        · rw [he]
          cases hrec : authLoop u p dm ch cn rest (k + 1) hp true with
          | done s hp2 au2 =>
            have := ih (k + 1) hp
            rw [hrec] at this
            simpa [authOk] using this
          | failed s e => simp [authOk]
      · rw [if_neg h2]
        exact ih _ _

/-- When `DIGEST-MD5` is advertised, the loop sends the digest `<auth>`
opener and either errors out early or finishes authenticated. -/
lemma authLoop_digest (u p dm : String) (ch cn : Nat → String) :
    ∀ (mechs : List String) (k : Nat) (hp au : Bool),
      "DIGEST-MD5" ∈ mechs →
      SaslSend.digestInit ∈ (authLoop u p dm ch cn mechs k hp au).sends ∧
      authOk (authLoop u p dm ch cn mechs k hp au) := by
  intro mechs
  induction mechs with
  | nil => intro k hp au h; cases h
  | cons m rest ih =>
    intro k hp au hmem
    simp only [authLoop]
    by_cases h2 : m = "DIGEST-MD5"
    · have h1 : ¬(m = "PLAIN") := by rw [h2]; decide
      rw [if_neg h1, if_pos h2]
      rcases digestExchange_cases u p dm (ch k) (cn k) with ⟨e, he⟩ | ⟨payload, he⟩
      · rw [he]
        simp [AuthLoopOut.sends, authOk]
      · rw [he]
        cases hrec : authLoop u p dm ch cn rest (k + 1) hp true with
        | done s hp2 au2 =>
          have hst := authLoop_authOk u p dm ch cn rest (k + 1) hp
          rw [hrec] at hst
          constructor
          · simp [AuthLoopOut.sends]
          · simpa [authOk] using hst
        | failed s e =>
          constructor
          · simp [AuthLoopOut.sends]
          · simp [authOk]
    · have hrest : "DIGEST-MD5" ∈ rest := by
        rcases List.mem_cons.mp hmem with h | h
        · exact absurd h.symm h2
        · exact h
      by_cases h1 : m = "PLAIN"
      · rw [if_pos h1]
        exact ih _ _ _ hrest
      · rw [if_neg h1, if_neg h2]
        exact ih _ _ _ hrest

/-- Without `DIGEST-MD5` in the list, the loop sends nothing and merely
collects the `havePlain` flag. -/
lemma authLoop_no_digest (u p dm : String) (ch cn : Nat → String) :
    ∀ (mechs : List String) (k : Nat) (hp au : Bool),
      "DIGEST-MD5" ∉ mechs →
      authLoop u p dm ch cn mechs k hp au =
        .done [] (hp || mechs.contains "PLAIN") au := by
  intro mechs
  induction mechs with
  | nil => intro k hp au _; simp [authLoop]
  | cons m rest ih =>
    intro k hp au hmem
    have h2 : ¬(m = "DIGEST-MD5") := fun e => hmem (by rw [e]; exact List.mem_cons_self _ _)
    have hmem2 : "DIGEST-MD5" ∉ rest := fun h => hmem (List.mem_cons_of_mem _ h)
    simp only [authLoop]
    by_cases h1 : m = "PLAIN"
    · rw [if_pos h1, ih _ _ _ hmem2]
      subst h1
      simp [List.contains_cons]
    · rw [if_neg h1, if_neg h2, ih _ _ _ hmem2]
      simp [List.contains_cons, decide_eq_false (Ne.symm h1)]

/-- C2: mechanism selection of `authenticate`.  If `DIGEST-MD5` is offered,
the DIGEST-MD5 exchange is performed (its `<auth mechanism='DIGEST-MD5'/>`
opener is sent) and no PLAIN `<auth>` is ever sent; if `PLAIN` is offered
without `DIGEST-MD5`, exactly one PLAIN `<auth>` is sent, whose payload is
`base64(\x00 user \x00 password)`; if neither is offered, nothing is sent
and the function fails with the unsupported-mechanism error naming the
offered list. -/
theorem authenticate_mechanism_selection (mechs : List String)
    (user password domain : String) (challenges cnonces : Nat → String)
    (finalResp : SaslFinal) :
    ("DIGEST-MD5" ∈ mechs →
      SaslSend.digestInit ∈
        (authenticate mechs user password domain challenges cnonces finalResp).1 ∧
      ∀ pay, SaslSend.plain pay ∉
        (authenticate mechs user password domain challenges cnonces finalResp).1) ∧
    ("DIGEST-MD5" ∉ mechs → "PLAIN" ∈ mechs →
      (authenticate mechs user password domain challenges cnonces finalResp).1 =
        [.plain (b64Encode (strBytes ("\x00" ++ user ++ "\x00" ++ password)))]) ∧
    ("DIGEST-MD5" ∉ mechs → "PLAIN" ∉ mechs →
      (authenticate mechs user password domain challenges cnonces finalResp).1 = [] ∧
      (authenticate mechs user password domain challenges cnonces finalResp).2 =
        .error ("PLAIN authentication is not an option: " ++
          goSprintStrSlice mechs)) := by
  refine ⟨?_, ?_, ?_⟩
  · intro hmem
    have hd := authLoop_digest user password domain challenges cnonces mechs 0
      false false hmem
    have hnp := authLoop_no_plain user password domain challenges cnonces mechs 0
      false false
    unfold authenticate
    cases hloop : authLoop user password domain challenges cnonces mechs 0
      false false with
    | failed s e =>
      rw [hloop] at hd hnp
      refine ⟨hd.1, fun pay => ?_⟩
      exact hnp pay
    | done s hp au =>
      rw [hloop] at hd hnp
      have hau : au = true := hd.2
      subst hau
      simp only [AuthLoopOut.sends] at hd hnp
      constructor
      · cases finalResp <;> simp [hd.1]
      · intro pay
        cases finalResp <;> simp [hnp pay]
  · intro hnd hp
    have hcont : mechs.contains "PLAIN" = true := List.elem_eq_true_of_mem hp
    unfold authenticate
    rw [authLoop_no_digest user password domain challenges cnonces mechs 0
      false false hnd, hcont]
    cases finalResp <;> simp
  · intro hnd hnp
    have hcont : mechs.contains "PLAIN" = false := by
      cases hc : mechs.contains "PLAIN" with
      | false => rfl
      | true => exact absurd (List.mem_of_elem_eq_true hc) hnp
    unfold authenticate
    rw [authLoop_no_digest user password domain challenges cnonces mechs 0
      false false hnd, hcont]
    simp

/-- Witness for C2 at three concrete mechanism lists: only DIGEST-MD5, only
PLAIN, and neither. -/
theorem authenticate_mechanism_selection_witness :
    ("DIGEST-MD5" ∈ ["DIGEST-MD5"] ∧
      SaslSend.digestInit ∈
        (authenticate ["DIGEST-MD5"] "user" "pass" "example.com"
          (fun _ => "") (fun _ => "") .success).1) ∧
    ("DIGEST-MD5" ∉ ["PLAIN"] ∧ "PLAIN" ∈ ["PLAIN"] ∧
      (authenticate ["PLAIN"] "user" "pass" "example.com"
          (fun _ => "") (fun _ => "") .success).1 =
        [.plain (b64Encode (strBytes ("\x00" ++ "user" ++ "\x00" ++ "pass")))]) ∧
    ("DIGEST-MD5" ∉ ["X-OAUTH2"] ∧ "PLAIN" ∉ ["X-OAUTH2"] ∧
      (authenticate ["X-OAUTH2"] "user" "pass" "example.com"
          (fun _ => "") (fun _ => "") .success).2 =
        .error ("PLAIN authentication is not an option: " ++
          goSprintStrSlice ["X-OAUTH2"])) :=
  ⟨⟨by decide,
      ((authenticate_mechanism_selection ["DIGEST-MD5"] "user" "pass"
        "example.com" (fun _ => "") (fun _ => "") .success).1 (by decide)).1⟩,
    ⟨by decide, by decide,
      (authenticate_mechanism_selection ["PLAIN"] "user" "pass"
        "example.com" (fun _ => "") (fun _ => "") .success).2.1 (by decide)
        (by decide)⟩,
    ⟨by decide, by decide,
      ((authenticate_mechanism_selection ["X-OAUTH2"] "user" "pass"
        "example.com" (fun _ => "") (fun _ => "") .success).2.2 (by decide)
        (by decide)).2⟩⟩

end GoXmpp
